import Mathlib

/-!
Verification of the nostr-postgres-db event store: a shallow embedding of
the filter compiler (query.rs), the record mapper (model.rs) and the
storage-engine operations (postgres.rs), with theorems settling the
specified properties.
-/

set_option maxRecDepth 4000

namespace NostrPG

/-- Cast of an unsigned 64-bit value to a signed 64-bit value, as the
Rust expression `x as i64` performs on a `u64` (two-s-complement wrap). -/
def i64_of_u64 (n : Nat) : Int :=
  if n % 2 ^ 64 < 2 ^ 63 then ((n % 2 ^ 64 : Nat) : Int)
  else ((n % 2 ^ 64 : Nat) : Int) - 2 ^ 64

/-- Cast of an unsigned 16-bit value to a signed 64-bit value
(`v.as_u16() as i64`): always non-negative, no wrap possible. -/
def i64_of_u16 (n : Nat) : Int := ((n % 2 ^ 16 : Nat) : Int)

/-- One bound SQL parameter, as pushed into the `Vec<Box<dyn ToSql>>`
of `filter_to_sql_params`. Byte vectors are modelled as lists of bytes. -/
inductive SqlParam where
  | byteaArr : List (List Nat) → SqlParam
  | int8Arr : List Int → SqlParam
  | int8 : Int → SqlParam
  | text : String → SqlParam
  | textArr : List String → SqlParam
deriving DecidableEq

/-- The nostr `Filter` as consumed by `filter_to_sql_params`: sets are
modelled as lists in iteration order, ids and authors already as their
byte representations, timestamps and kinds as the natural numbers held
by the `u64` / `u16` wrappers. -/
structure Filter where
  ids : Option (List (List Nat))
  authors : Option (List (List Nat))
  kinds : Option (List Nat)
  since : Option Nat
  until_ts : Option Nat
  generic_tags : List (String × List String)
  limit : Option Nat
deriving DecidableEq

/-- `has_filters` from query.rs: true when any field of the filter is set
(a limit alone counts). -/
def has_filters (f : Filter) : Bool :=
  f.ids.isSome || f.authors.isSome || f.kinds.isSome || f.since.isSome
    || f.until_ts.isSome || !f.generic_tags.isEmpty || f.limit.isSome

/-- The mutable compilation state of `filter_to_sql_params`: the sql text
built so far, the parameter list built so far, and the next placeholder
index `idx`. -/
abbrev SqlState := String × List SqlParam × Nat

/-- The `if let Some(ids) = &filter.ids` block of `filter_to_sql_params`. -/
def applyIds (f : Filter) (st : SqlState) : SqlState :=
  match f.ids with
  | some ids =>
      (st.1 ++ " AND events.id = ANY ($" ++ toString st.2.2 ++ ")",
       st.2.1 ++ [SqlParam.byteaArr ids], st.2.2 + 1)
  | none => st

/-- The `if let Some(authors) = &filter.authors` block. -/
def applyAuthors (f : Filter) (st : SqlState) : SqlState :=
  match f.authors with
  | some authors =>
      (st.1 ++ " AND events.pubkey = ANY ($" ++ toString st.2.2 ++ ")",
       st.2.1 ++ [SqlParam.byteaArr authors], st.2.2 + 1)
  | none => st

/-- The `if let Some(kinds) = &filter.kinds` block: each kind is cast
`as_u16() as i64`. -/
def applyKinds (f : Filter) (st : SqlState) : SqlState :=
  match f.kinds with
  | some kinds =>
      (st.1 ++ " AND events.kind = ANY ($" ++ toString st.2.2 ++ ")",
       st.2.1 ++ [SqlParam.int8Arr (kinds.map i64_of_u16)], st.2.2 + 1)
  | none => st

/-- The `if let Some(since) = filter.since` block. -/
def applySince (f : Filter) (st : SqlState) : SqlState :=
  match f.since with
  | some since =>
      (st.1 ++ " AND events.created_at >= $" ++ toString st.2.2,
       st.2.1 ++ [SqlParam.int8 (i64_of_u64 since)], st.2.2 + 1)
  | none => st

/-- The `if let Some(until) = filter.until` block. -/
def applyUntil (f : Filter) (st : SqlState) : SqlState :=
  match f.until_ts with
  | some u =>
      (st.1 ++ " AND events.created_at <= $" ++ toString st.2.2,
       st.2.1 ++ [SqlParam.int8 (i64_of_u64 u)], st.2.2 + 1)
  | none => st

/-- The `for (tag, values) in &filter.generic_tags` loop: two clauses and
two parameters per tag constraint. -/
def applyTags : List (String × List String) → SqlState → SqlState
  | [], st => st
  | (tag, values) :: rest, st =>
      let st1 : SqlState :=
        (st.1 ++ " AND event_tags.tag = $" ++ toString st.2.2,
         st.2.1 ++ [SqlParam.text tag], st.2.2 + 1)
      let st2 : SqlState :=
        (st1.1 ++ " AND event_tags.tag_value = ANY ($" ++ toString st1.2.2 ++ ")",
         st1.2.1 ++ [SqlParam.textArr values], st1.2.2 + 1)
      applyTags rest st2

/-- `filter_to_sql_params` from query.rs: compiles a base query and a
filter into the final query text and the ordered parameter list. -/
def filter_to_sql_params (base_query : String) (f : Filter) :
    String × List SqlParam :=
  if has_filters f then
    let st := applyTags f.generic_tags
      (applyUntil f (applySince f (applyKinds f (applyAuthors f (applyIds f (base_query, [], 1))))))
    let sql := st.1 ++ " ORDER BY events.created_at DESC"
    match f.limit with
    | some l => (sql ++ " LIMIT $" ++ toString st.2.2,
                 st.2.1 ++ [SqlParam.int8 (i64_of_u64 l)])
    | none => (sql, st.2.1)
  else (base_query, [])

/-- `with_limit` from query.rs: sets the given default limit on a filter
if none is set. -/
def with_limit (f : Filter) (default_limit : Nat) : Filter :=
  if f.limit.isNone then { f with limit := some default_limit } else f

/-- One emitted clause, abstracted over its placeholder number: the text
the clause contributes given its placeholder index, and the single
parameter it binds. -/
structure Clause where
  render : Nat → String
  param : SqlParam

/-- The clause (if any) emitted for the ids field. -/
def idsClauses (f : Filter) : List Clause :=
  match f.ids with
  | some ids => [⟨fun n => " AND events.id = ANY ($" ++ toString n ++ ")",
                  SqlParam.byteaArr ids⟩]
  | none => []

/-- The clause (if any) emitted for the authors field. -/
def authorsClauses (f : Filter) : List Clause :=
  match f.authors with
  | some authors => [⟨fun n => " AND events.pubkey = ANY ($" ++ toString n ++ ")",
                      SqlParam.byteaArr authors⟩]
  | none => []

/-- The clause (if any) emitted for the kinds field. -/
def kindsClauses (f : Filter) : List Clause :=
  match f.kinds with
  | some kinds => [⟨fun n => " AND events.kind = ANY ($" ++ toString n ++ ")",
                    SqlParam.int8Arr (kinds.map i64_of_u16)⟩]
  | none => []

/-- The clause (if any) emitted for the since bound. -/
def sinceClauses (f : Filter) : List Clause :=
  match f.since with
  | some s => [⟨fun n => " AND events.created_at >= $" ++ toString n,
                SqlParam.int8 (i64_of_u64 s)⟩]
  | none => []

/-- The clause (if any) emitted for the until bound. -/
def untilClauses (f : Filter) : List Clause :=
  match f.until_ts with
  | some u => [⟨fun n => " AND events.created_at <= $" ++ toString n,
                SqlParam.int8 (i64_of_u64 u)⟩]
  | none => []

/-- The two clauses emitted per tag constraint: tag-name equality, then
tag-value membership. -/
def tagClauses : List (String × List String) → List Clause
  | [] => []
  | (tag, values) :: rest =>
      ⟨fun n => " AND event_tags.tag = $" ++ toString n, SqlParam.text tag⟩ ::
      ⟨fun n => " AND event_tags.tag_value = ANY ($" ++ toString n ++ ")",
        SqlParam.textArr values⟩ ::
      tagClauses rest

/-- All constraint clauses of a filter, in the fixed emission order of
`filter_to_sql_params`. -/
def clausesOf (f : Filter) : List Clause :=
  idsClauses f ++ authorsClauses f ++ kindsClauses f ++ sinceClauses f
    ++ untilClauses f ++ tagClauses f.generic_tags

/-- Renders a clause list with placeholder numbers assigned sequentially
starting at `n`. -/
def renderFrom : List Clause → Nat → String
  | [], _ => ""
  | c :: rest, n => c.render n ++ renderFrom rest (n + 1)

/-- One tag of a logical event: its kind (name) and its optional content,
as exposed by `tag.kind()` and `tag.content()` in model.rs. -/
structure Tag where
  kind : String
  content : Option String
deriving DecidableEq

/-- The logical nostr `Event` at the interface of this store: identity
bytes, author key bytes, creation timestamp (u64), kind (u16) and tags.
All other fields live only inside the opaque encoded payload. -/
structure Event where
  id : List Nat
  pubkey : List Nat
  created_at : Nat
  kind : Nat
  tags : List Tag
deriving DecidableEq

/-- Modelled from the spec: the opaque encoded payload bytes produced by
the external codec (spec section 6 treats the codec as an external
`encode(Event) -> bytes` / `decode(bytes) -> Event or DecodeError` pair).
`encoded e` stands for the well-formed encoding of `e`; `corrupt k`
stands for any malformed byte sequence. -/
inductive Payload where
  | encoded : Event → Payload
  | corrupt : Nat → Payload
deriving DecidableEq

/-- Modelled from the spec: the external `encode` half of the payload
codec, total and deterministic. -/
def encode (e : Event) : Payload := Payload.encoded e

/-- Modelled from the spec: the external `decode` half of the payload
codec; inverse of `encode` on well-formed bytes, fails on malformed
bytes. -/
def decode : Payload → Except Unit Event
  | Payload.encoded e => Except.ok e
  | Payload.corrupt _ => Except.error ()

instance {ε α : Type} [DecidableEq ε] [DecidableEq α] :
    DecidableEq (Except ε α) := fun x y =>
  match x, y with
  | Except.ok a, Except.ok b =>
      if h : a = b then isTrue (by rw [h])
      else isFalse (by intro hc; cases hc; exact h rfl)
  | Except.error a, Except.error b =>
      if h : a = b then isTrue (by rw [h])
      else isFalse (by intro hc; cases hc; exact h rfl)
  | Except.ok _, Except.error _ => isFalse (by intro hc; cases hc)
  | Except.error _, Except.ok _ => isFalse (by intro hc; cases hc)

/-- The cause carried inside a backend-wrapped `DatabaseError`: the
distinct failure sources of postgres.rs (`DatabaseError::backend` is
applied to connection failures, statement failures and decode
failures). -/
inductive ErrCause where
  | connection
  | statement
  | decodeFailure
deriving DecidableEq

/-- The `DatabaseError` type at the store boundary: backend-wrapped
failures and the not-supported failure returned by wipe. -/
inductive DatabaseError where
  | backend : ErrCause → DatabaseError
  | notSupported
deriving DecidableEq

/-- `SaveEventStatus`: accepted, or rejected as a duplicate (the only
rejection reason postgres.rs produces). -/
inductive SaveEventStatus where
  | success
  | rejected_duplicate
deriving DecidableEq

/-- `DatabaseEventStatus` returned by `check_id`. -/
inductive DatabaseEventStatus where
  | saved
  | deleted
  | notExistent
deriving DecidableEq

/-- `EventDb` from model.rs: the persisted row shape of an event. -/
structure EventDb where
  id : List Nat
  pubkey : List Nat
  created_at : Int
  kind : Int
  payload : Payload
  deleted : Bool
deriving DecidableEq

/-- `EventTagDb` from model.rs: one persisted tag row. -/
structure EventTagDb where
  tag : String
  tag_value : String
  event_id : List Nat
deriving DecidableEq

/-- `EventDataDb` from model.rs: an event row together with its tag
rows, as handed to `save`. -/
structure EventDataDb where
  event : EventDb
  tags : List EventTagDb
deriving DecidableEq

/-- A fetched row with the six selected columns of the events table, in
select order: id, pubkey, created_at, kind, payload, deleted. -/
structure Row where
  col0 : List Nat
  col1 : List Nat
  col2 : Int
  col3 : Int
  col4 : Payload
  col5 : Bool
deriving DecidableEq

/-- `impl From<Row> for EventDb` from model.rs: a direct positional
field copy of the fetched row. -/
def EventDb.from_row (r : Row) : EventDb :=
  { id := r.col0, pubkey := r.col1, created_at := r.col2, kind := r.col3,
    payload := r.col4, deleted := r.col5 }

/-- `encode_payload` from model.rs: encodes through the shared
lock-guarded builder when the lock is acquired (`lockOk = true`) and
falls back to a fresh disposable builder when acquisition fails; the
builder instance does not affect the encoded bytes. -/
def encode_payload (lockOk : Bool) (e : Event) : Payload :=
  match lockOk with
  | true => encode e
  | false => encode e

/-- `extract_tags` from model.rs: one tag row per event tag whose
content is present; tags without content are dropped. -/
def extract_tags (e : Event) : List EventTagDb :=
  e.tags.filterMap fun t =>
    match t.content with
    | some content =>
        some { tag := t.kind, tag_value := content, event_id := e.id }
    | none => none

/-- `EventDataDb::try_from` from model.rs: maps a logical event to its
row and tag rows; `deleted` starts false, timestamps and kind are cast
to i64, the payload is produced by `encode_payload`. -/
def EventDataDb.tryFrom (lockOk : Bool) (e : Event) :
    Except DatabaseError EventDataDb :=
  Except.ok
    { event :=
        { id := e.id, pubkey := e.pubkey,
          created_at := i64_of_u64 e.created_at,
          kind := i64_of_u16 e.kind,
          payload := encode_payload lockOk e, deleted := false },
      tags := extract_tags e }

/-- The persistent state of the backing store: the events table and the
event_tags table, as row lists. -/
structure DbState where
  events : List EventDb
  tags : List EventTagDb
deriving DecidableEq

/-- Lookup of an event row by id (`query_opt ... WHERE id = $1`; at most
one row exists because id is the primary key, so the first match is the
row). -/
def findEvent (st : DbState) (eid : List Nat) : Option EventDb :=
  st.events.find? fun r => r.id == eid

/-- Whether a row with the given id is already committed. -/
def idPresent (st : DbState) (eid : List Nat) : Bool :=
  st.events.any fun r => r.id == eid

/-- The state after committing a save of `ed`: the event row and its tag
rows appended. -/
def extendState (st : DbState) (ed : EventDataDb) : DbState :=
  { events := st.events ++ [ed.event], tags := st.tags ++ ed.tags }

/-- Fault injection for the steps of `save` that precede the commit:
connection acquisition, transaction begin, the event-row insert and the
per-tag inserts. -/
structure FaultSpec where
  conn : Bool
  beginTx : Bool
  insertEvent : Bool
  insertTag : Nat → Bool

/-- Whether some tag insert of the save fails under the fault spec. -/
def hasTagFault (flt : FaultSpec) (tags : List EventTagDb) : Bool :=
  (List.range tags.length).any flt.insertTag

/-- Whether no step of the save before the commit fails. -/
def noFaults (flt : FaultSpec) (ed : EventDataDb) : Bool :=
  !flt.conn && !flt.beginTx && !flt.insertEvent && !hasTagFault flt ed.tags

/-- `NostrPostgres::save` from postgres.rs: acquires a connection, opens
a transaction, inserts the event row, inserts each tag row, then
commits; any failure before the commit propagates as a backend error,
commit success yields the accepted status, commit failure yields the
rejected-duplicate status. Modelled from the spec for the external
store: the primary-key uniqueness constraint on id makes the commit fail
exactly when the id is already committed (spec section 4.4 delegates
duplicate detection to that constraint). -/
def save (st : DbState) (flt : FaultSpec) (ed : EventDataDb) :
    Except DatabaseError (SaveEventStatus × DbState) :=
  if flt.conn then Except.error (DatabaseError.backend ErrCause.connection)
  else if flt.beginTx then Except.error (DatabaseError.backend ErrCause.statement)
  else if flt.insertEvent then Except.error (DatabaseError.backend ErrCause.statement)
  else if hasTagFault flt ed.tags then
    Except.error (DatabaseError.backend ErrCause.statement)
  else if idPresent st ed.event.id then
    Except.ok (SaveEventStatus.rejected_duplicate, st)
  else
    Except.ok (SaveEventStatus.success, extendState st ed)

/-- `NostrDatabase::save_event` from postgres.rs: maps the event through
`EventDataDb::try_from` (propagating its error with `?`) and saves the
result. -/
def save_event (st : DbState) (flt : FaultSpec) (lockOk : Bool) (e : Event) :
    Except DatabaseError (SaveEventStatus × DbState) :=
  match EventDataDb.tryFrom lockOk e with
  | Except.ok ed => save st flt ed
  | Except.error er => Except.error er

/-- `NostrDatabase::check_id` from postgres.rs: looks the row up by id
and inspects its deleted flag. -/
def check_id (st : DbState) (eid : List Nat) :
    Except DatabaseError DatabaseEventStatus :=
  match findEvent st eid with
  | some e =>
      if e.deleted then Except.ok DatabaseEventStatus.deleted
      else Except.ok DatabaseEventStatus.saved
  | none => Except.ok DatabaseEventStatus.notExistent

/-- The `NostrDatabase::event_by_id` trait method from postgres.rs (the
single-event get): decodes the payload of a found, non-deleted row,
mapping a decode failure through `DatabaseError::backend`; a missing or
deleted row yields none. -/
def event_by_id (st : DbState) (eid : List Nat) :
    Except DatabaseError (Option Event) :=
  match findEvent st eid with
  | some e =>
      if !e.deleted then
        match decode e.payload with
        | Except.ok ev => Except.ok (some ev)
        | Except.error _ =>
            Except.error (DatabaseError.backend ErrCause.decodeFailure)
      else Except.ok none
  | none => Except.ok none

/-- The decode loop of `NostrDatabase::query` from postgres.rs: each
fetched row whose payload decodes is inserted into the result set, a row
whose payload fails to decode is silently skipped. -/
def collectEvents (rows : List EventDb) : List Event :=
  rows.filterMap fun r =>
    match decode r.payload with
    | Except.ok ev => some ev
    | Except.error _ => none

/-- The base query text of `NostrDatabase::count` from postgres.rs,
verbatim. -/
def count_base_query : String :=
  "SELECT DISTINCT count(*) FROM events LEFT JOIN event_tags ON events.id = event_tags.event_id WHERE events.deleted = FALSE"

/-- The tag rows attached to a given event id. -/
def tagsFor (st : DbState) (eid : List Nat) : List EventTagDb :=
  st.tags.filter fun t => t.event_id == eid

/-- Modelled from the spec: the external store evaluates `count(*)` over
`events LEFT JOIN event_tags ON events.id = event_tags.event_id WHERE
events.deleted = FALSE` as the number of join rows — each non-deleted
event contributes one row per matching tag row, or a single null-padded
row when it has no tags. This is the value the count base query returns
when no filter clause is appended. -/
def leftJoinRowCount (st : DbState) : Nat :=
  ((st.events.filter fun e => !e.deleted).map
    (fun e => max 1 (tagsFor st e.id).length)).sum

/-- The number of distinct non-deleted events in the store (ids are
unique by the primary-key invariant). -/
def distinctNonDeletedCount (st : DbState) : Nat :=
  (st.events.filter fun e => !e.deleted).length

/-- `NostrDatabase::count` from postgres.rs for the empty filter: the
compiled query is the base query itself; an execution failure is mapped
to zero instead of an error, otherwise the scalar the store computed is
returned. -/
def countEmptyFilter (execFail : Bool) (st : DbState) :
    Except DatabaseError Nat :=
  Except.ok (if execFail then 0 else leftJoinRowCount st)

/-- The bulk-update statement text of `NostrDatabase::delete` from
postgres.rs, verbatim: the placeholder is the literal text dollar,
open-brace, close-brace — no `format!` is applied to it. -/
def delete_update_query : String :=
  "UPDATE events SET deleted = TRUE WHERE events.id = ANY ($\x7b\x7d)"

/-- Modelled from the spec: the external store lexes a statement only if
every dollar sign introduces a positional placeholder, that is, is
immediately followed by a digit; otherwise the statement is a syntax
error and execution fails. -/
def dollarsFollowedByDigit : List Char → Bool
  | [] => true
  | '$' :: c :: rest => c.isDigit && dollarsFollowedByDigit (c :: rest)
  | '$' :: [] => false
  | _ :: rest => dollarsFollowedByDigit rest

/-- The intended effect of the bulk update: mark exactly the listed ids
deleted. -/
def markDeleted (st : DbState) (ids : List (List Nat)) : DbState :=
  { st with
    events := st.events.map fun e =>
      if ids.contains e.id then { e with deleted := true } else e }

/-- Modelled from the spec: execution of an update statement by the
external store — a statement whose dollar signs are well-formed
positional placeholders performs the bulk update on the bound ids, a
malformed statement is rejected with an execution error. -/
def runUpdateStmt (q : String) (ids : List (List Nat)) (st : DbState) :
    Except DatabaseError DbState :=
  if dollarsFollowedByDigit q.data then Except.ok (markDeleted st ids)
  else Except.error (DatabaseError.backend ErrCause.statement)

/-- The update half of `NostrDatabase::delete` from postgres.rs: after
the selecting query has pinned the matching ids, the bulk update is
executed with `delete_update_query` as its text and the pinned ids as
its parameters; an execution error propagates as a backend error. -/
def deleteUpdateStep (st : DbState) (matchedIds : List (List Nat)) :
    Except DatabaseError DbState :=
  runUpdateStmt delete_update_query matchedIds st

/-- A concrete saved event used to evaluate the store operations. -/
def exEvent : Event :=
  { id := [1, 2, 3], pubkey := [9, 9], created_at := 100, kind := 1,
    tags := [{ kind := "e", content := some "v1" },
             { kind := "p", content := some "v2" }] }

/-- The row form of `exEvent` (payload well formed, not deleted). -/
def exRow : EventDb :=
  { id := [1, 2, 3], pubkey := [9, 9], created_at := 100, kind := 1,
    payload := encode exEvent, deleted := false }

/-- A store holding `exEvent` and its two tag rows: the failing input of
the delete and count evaluations. -/
def exSt : DbState :=
  { events := [exRow],
    tags := [{ tag := "e", tag_value := "v1", event_id := [1, 2, 3] },
             { tag := "p", tag_value := "v2", event_id := [1, 2, 3] }] }

/-- A fault spec with no injected faults. -/
def noFault : FaultSpec :=
  { conn := false, beginTx := false, insertEvent := false,
    insertTag := fun _ => false }

/-- The filter used to instantiate the compiler theorems: two authors, a
since bound and a limit. -/
def wFilter : Filter :=
  { ids := none, authors := some [[10], [11]], kinds := none,
    since := some 7, until_ts := none, generic_tags := [], limit := some 3 }

/-- A fault spec failing connection acquisition. -/
def connFault : FaultSpec :=
  { conn := true, beginTx := false, insertEvent := false,
    insertTag := fun _ => false }

/-- The row-and-tags form of `exEvent` with no tag rows, used to
instantiate the save theorems. -/
def exED : EventDataDb := { event := exRow, tags := [] }

/-- A persisted row whose payload is malformed. -/
def corruptRow : EventDb :=
  { id := [7], pubkey := [8], created_at := 1, kind := 0,
    payload := Payload.corrupt 0, deleted := false }

/-- A persisted row marked deleted. -/
def delRow : EventDb :=
  { id := [5], pubkey := [8], created_at := 2, kind := 0,
    payload := encode exEvent, deleted := true }

/-- A store with a readable row, a corrupt row and a deleted row, used
to instantiate the read-path theorems. -/
def readSt : DbState :=
  { events := [exRow, corruptRow, delRow], tags := [] }

/-- The store produced by saving `exEvent` into the empty store. -/
def wSt2 : DbState :=
  match EventDataDb.tryFrom true exEvent with
  | Except.ok ed => extendState { events := [], tags := [] } ed
  | Except.error _ => { events := [], tags := [] }

theorem renderFrom_append (cs ds : List Clause) (n : Nat) :
    renderFrom (cs ++ ds) n = renderFrom cs n ++ renderFrom ds (n + cs.length) := by
  induction cs generalizing n with
  | nil => simp [renderFrom, String.empty_append]
  | cons c rest ih =>
      have hn : n + 1 + rest.length = n + (rest.length + 1) := by omega
      simp [renderFrom, ih, String.append_assoc, hn]

theorem applyIds_eq (f : Filter) (sql : String) (ps : List SqlParam) (idx : Nat) :
    applyIds f (sql, ps, idx) =
      (sql ++ renderFrom (idsClauses f) idx,
       ps ++ (idsClauses f).map Clause.param,
       idx + (idsClauses f).length) := by
  cases h : f.ids <;>
    simp [applyIds, idsClauses, renderFrom, h, String.append_empty,
      String.append_assoc]

theorem applyAuthors_eq (f : Filter) (sql : String) (ps : List SqlParam) (idx : Nat) :
    applyAuthors f (sql, ps, idx) =
      (sql ++ renderFrom (authorsClauses f) idx,
       ps ++ (authorsClauses f).map Clause.param,
       idx + (authorsClauses f).length) := by
  cases h : f.authors <;>
    simp [applyAuthors, authorsClauses, renderFrom, h, String.append_empty,
      String.append_assoc]

theorem applyKinds_eq (f : Filter) (sql : String) (ps : List SqlParam) (idx : Nat) :
    applyKinds f (sql, ps, idx) =
      (sql ++ renderFrom (kindsClauses f) idx,
       ps ++ (kindsClauses f).map Clause.param,
       idx + (kindsClauses f).length) := by
  cases h : f.kinds <;>
    simp [applyKinds, kindsClauses, renderFrom, h, String.append_empty,
      String.append_assoc]

theorem applySince_eq (f : Filter) (sql : String) (ps : List SqlParam) (idx : Nat) :
    applySince f (sql, ps, idx) =
      (sql ++ renderFrom (sinceClauses f) idx,
       ps ++ (sinceClauses f).map Clause.param,
       idx + (sinceClauses f).length) := by
  cases h : f.since <;>
    simp [applySince, sinceClauses, renderFrom, h, String.append_empty,
      String.append_assoc]

theorem applyUntil_eq (f : Filter) (sql : String) (ps : List SqlParam) (idx : Nat) :
    applyUntil f (sql, ps, idx) =
      (sql ++ renderFrom (untilClauses f) idx,
       ps ++ (untilClauses f).map Clause.param,
       idx + (untilClauses f).length) := by
  cases h : f.until_ts <;>
    simp [applyUntil, untilClauses, renderFrom, h, String.append_empty,
      String.append_assoc]

theorem applyTags_eq (tags : List (String × List String)) (sql : String)
    (ps : List SqlParam) (idx : Nat) :
    applyTags tags (sql, ps, idx) =
      (sql ++ renderFrom (tagClauses tags) idx,
       ps ++ (tagClauses tags).map Clause.param,
       idx + (tagClauses tags).length) := by
  induction tags generalizing sql ps idx with
  | nil => simp [applyTags, tagClauses, renderFrom, String.append_empty]
  | cons hd tl ih =>
      obtain ⟨tag, values⟩ := hd
      have hn : idx + 1 + 1 + (tagClauses tl).length
          = idx + ((tagClauses tl).length + 1 + 1) := by omega
      simp [applyTags, tagClauses, renderFrom, ih, String.append_assoc,
        List.append_assoc, hn]

theorem pipeline_eq (b : String) (f : Filter) :
    applyTags f.generic_tags
        (applyUntil f (applySince f (applyKinds f (applyAuthors f
          (applyIds f (b, ([] : List SqlParam), 1)))))) =
      (b ++ renderFrom (clausesOf f) 1,
       (clausesOf f).map Clause.param,
       1 + (clausesOf f).length) := by
  rw [applyIds_eq, applyAuthors_eq, applyKinds_eq, applySince_eq,
    applyUntil_eq, applyTags_eq]
  simp only [clausesOf, renderFrom_append, List.map_append, List.length_append,
    List.nil_append, String.append_assoc, List.append_assoc, Prod.mk.injEq]
  exact ⟨by trivial, by trivial, by omega⟩

/-- Claim C3: compiling a filter with no constraints and no limit returns
the base query unmodified with an empty parameter list; compiling an
otherwise-empty filter with only limit 5 set goes through the clause
emission path and returns the base query followed by the order-by and a
limit clause bound to exactly one parameter equal to 5. -/
theorem c3_empty_and_limit_only (b : String) :
    filter_to_sql_params b ⟨none, none, none, none, none, [], none⟩ = (b, [])
    ∧ filter_to_sql_params b ⟨none, none, none, none, none, [], some 5⟩ =
        (b ++ " ORDER BY events.created_at DESC LIMIT $1",
         [SqlParam.int8 5]) := by
  constructor
  · simp [filter_to_sql_params, has_filters]
  · show (if _ then _ else _) = _
    rw [if_pos (by decide)]
    simp only [applyTags, applyUntil, applySince, applyKinds, applyAuthors,
      applyIds]
    have h1 : (" ORDER BY events.created_at DESC LIMIT $" : String)
        ++ toString (1 : Nat) = " ORDER BY events.created_at DESC LIMIT $1" := by
      decide
    have h2 : i64_of_u64 5 = 5 := by decide
    simp [String.append_assoc, h1, h2]

theorem compile_params_eq (b : String) (f : Filter)
    (h : has_filters f = true) :
    (filter_to_sql_params b f).2 =
      (clausesOf f).map Clause.param ++
        (match f.limit with
         | some l => [SqlParam.int8 (i64_of_u64 l)]
         | none => []) := by
  unfold filter_to_sql_params
  rw [if_pos h, pipeline_eq]
  cases hl : f.limit <;> simp

theorem compile_text_eq (b : String) (f : Filter)
    (h : has_filters f = true) :
    (filter_to_sql_params b f).1 =
      b ++ renderFrom (clausesOf f) 1 ++ " ORDER BY events.created_at DESC"
        ++ (match f.limit with
            | some _ => " LIMIT $" ++ toString (1 + (clausesOf f).length)
            | none => "") := by
  have hmerge : ∀ x : String,
      (" ORDER BY events.created_at DESC" : String) ++ (" LIMIT $" ++ x)
        = " ORDER BY events.created_at DESC LIMIT $" ++ x := by
    intro x
    rw [← String.append_assoc]
    rw [show (" ORDER BY events.created_at DESC" : String) ++ " LIMIT $"
      = " ORDER BY events.created_at DESC LIMIT $" from by decide]
  unfold filter_to_sql_params
  rw [if_pos h, pipeline_eq]
  cases hl : f.limit <;>
    simp [String.append_empty, String.append_assoc, hmerge]

/-- Claim C2: for a filter with at least one constraint, every appended
clause binds exactly one positional parameter, placeholders are numbered
sequentially starting at 1 in the order the parameters are appended to
the returned list (the query text is the base text followed by the
clauses rendered with placeholder numbers equal to their one-based list
positions), and when a limit is present its parameter carries
placeholder number one past the constraint clauses and is the last
element of the parameter list. -/
theorem c2_param_lockstep (b : String) (f : Filter)
    (h : has_filters f = true) :
    (filter_to_sql_params b f).2 =
        (clausesOf f).map Clause.param ++
          (match f.limit with
           | some l => [SqlParam.int8 (i64_of_u64 l)]
           | none => [])
    ∧ (filter_to_sql_params b f).1 =
        b ++ renderFrom (clausesOf f) 1 ++ " ORDER BY events.created_at DESC"
          ++ (match f.limit with
              | some _ => " LIMIT $" ++ toString (1 + (clausesOf f).length)
              | none => "")
    ∧ ∀ l, f.limit = some l →
        (filter_to_sql_params b f).2.getLast? =
          some (SqlParam.int8 (i64_of_u64 l)) := by
  refine ⟨compile_params_eq b f h, compile_text_eq b f h, ?_⟩
  intro l hl
  rw [compile_params_eq b f h, hl]
  simp [List.getLast?_concat]

/-- The witness filter compiled against a concrete base: the parameter
list is the authors array, the since bound and the limit, in that order,
the placeholders are numbered 1, 2, 3 in the text, and the limit
parameter is last. -/
theorem c2_param_lockstep_witness :
    has_filters wFilter = true
    ∧ (filter_to_sql_params "B" wFilter).2 =
        (clausesOf wFilter).map Clause.param ++ [SqlParam.int8 (i64_of_u64 3)]
    ∧ (filter_to_sql_params "B" wFilter).2.getLast? =
        some (SqlParam.int8 (i64_of_u64 3)) := by
  have h := c2_param_lockstep "B" wFilter (by decide)
  exact ⟨by decide, h.1, h.2.2 3 rfl⟩

/-- Claim C4: for a filter with at least one constraint the compiler
emits clauses in the fixed order ids-membership, authors-membership,
kinds-membership, since inclusive lower bound, until inclusive upper
bound, then per tag constraint a tag-name equality followed by a
tag-value membership test, and after all constraint clauses a descending
order-by on created_at (followed only by the optional limit clause). -/
theorem c4_clause_order (b : String) (f : Filter)
    (h : has_filters f = true) :
    (filter_to_sql_params b f).1 =
      b ++ renderFrom
          ((match f.ids with
            | some ids => [⟨fun n => " AND events.id = ANY ($" ++ toString n ++ ")",
                            SqlParam.byteaArr ids⟩]
            | none => []) ++
           (match f.authors with
            | some authors => [⟨fun n => " AND events.pubkey = ANY ($" ++ toString n ++ ")",
                                SqlParam.byteaArr authors⟩]
            | none => []) ++
           (match f.kinds with
            | some kinds => [⟨fun n => " AND events.kind = ANY ($" ++ toString n ++ ")",
                              SqlParam.int8Arr (kinds.map i64_of_u16)⟩]
            | none => []) ++
           (match f.since with
            | some s => [⟨fun n => " AND events.created_at >= $" ++ toString n,
                          SqlParam.int8 (i64_of_u64 s)⟩]
            | none => []) ++
           (match f.until_ts with
            | some u => [⟨fun n => " AND events.created_at <= $" ++ toString n,
                          SqlParam.int8 (i64_of_u64 u)⟩]
            | none => []) ++
           tagClauses f.generic_tags) 1
        ++ " ORDER BY events.created_at DESC"
        ++ (match f.limit with
            | some _ => " LIMIT $" ++ toString (1 + (clausesOf f).length)
            | none => "") := by
  have hids : (match f.ids with
      | some ids => [(⟨fun n => " AND events.id = ANY ($" ++ toString n ++ ")",
                      SqlParam.byteaArr ids⟩ : Clause)]
      | none => []) = idsClauses f := by
    cases hc : f.ids <;> simp [idsClauses, hc]
  have hauthors : (match f.authors with
      | some authors => [(⟨fun n => " AND events.pubkey = ANY ($" ++ toString n ++ ")",
                          SqlParam.byteaArr authors⟩ : Clause)]
      | none => []) = authorsClauses f := by
    cases hc : f.authors <;> simp [authorsClauses, hc]
  have hkinds : (match f.kinds with
      | some kinds => [(⟨fun n => " AND events.kind = ANY ($" ++ toString n ++ ")",
                        SqlParam.int8Arr (kinds.map i64_of_u16)⟩ : Clause)]
      | none => []) = kindsClauses f := by
    cases hc : f.kinds <;> simp [kindsClauses, hc]
  have hsince : (match f.since with
      | some s => [(⟨fun n => " AND events.created_at >= $" ++ toString n,
                    SqlParam.int8 (i64_of_u64 s)⟩ : Clause)]
      | none => []) = sinceClauses f := by
    cases hc : f.since <;> simp [sinceClauses, hc]
  have huntil : (match f.until_ts with
      | some u => [(⟨fun n => " AND events.created_at <= $" ++ toString n,
                    SqlParam.int8 (i64_of_u64 u)⟩ : Clause)]
      | none => []) = untilClauses f := by
    cases hc : f.until_ts <;> simp [untilClauses, hc]
  rw [hids, hauthors, hkinds, hsince, huntil]
  exact compile_text_eq b f h

/-- The clause order evaluated at the witness filter: the authors clause
comes first, then the since clause, then the order-by and the limit. -/
theorem c4_clause_order_witness :
    (filter_to_sql_params "B" wFilter).1 =
      "B AND events.pubkey = ANY ($1) AND events.created_at >= $2 ORDER BY events.created_at DESC LIMIT $3" := by
  have h := c4_clause_order "B" wFilter (by decide)
  rw [h]
  decide

theorem findEvent_extend (st : DbState) (ed : EventDataDb)
    (h : idPresent st ed.event.id = false) :
    findEvent (extendState st ed) ed.event.id = some ed.event := by
  unfold findEvent extendState
  rw [List.find?_append]
  have hnone : st.events.find? (fun r => r.id == ed.event.id) = none := by
    rw [List.find?_eq_none]
    intro x hx hpx
    have : st.events.any (fun r => r.id == ed.event.id) = true :=
      List.any_eq_true.mpr ⟨x, hx, hpx⟩
    rw [idPresent] at h
    simp [this] at h
  rw [hnone, Option.none_or]
  simp [List.find?]

/-- Claim C10: converting an event to its row form never fails — for
every event and either outcome of the shared-builder lock acquisition,
`EventDataDb::try_from` returns Ok, because payload encoding is total:
the fallback constructs a fresh builder when the shared lock-guarded one
cannot be acquired. -/
theorem c10_tryFrom_total (e : Event) (lockOk : Bool) :
    (EventDataDb.tryFrom lockOk e).isOk = true := rfl

/-- Claim C9: decoding the payload of the row produced by
`EventDataDb::try_from` yields the original event back (hence equal in
id, pubkey, created_at, kind and tag content), the row fields carry the
cast copies of the event fields and the extracted tag rows, and
`from_row` is a direct one-to-one field copy of the fetched row. -/
theorem c9_roundtrip (e : Event) (lockOk : Bool) (r : Row) :
    (∀ ed, EventDataDb.tryFrom lockOk e = Except.ok ed →
       decode ed.event.payload = Except.ok e
       ∧ ed.event.id = e.id
       ∧ ed.event.pubkey = e.pubkey
       ∧ ed.event.created_at = i64_of_u64 e.created_at
       ∧ ed.event.kind = i64_of_u16 e.kind
       ∧ ed.tags = extract_tags e)
    ∧ EventDb.from_row r =
        { id := r.col0, pubkey := r.col1, created_at := r.col2,
          kind := r.col3, payload := r.col4, deleted := r.col5 } := by
  constructor
  · intro ed hed
    unfold EventDataDb.tryFrom at hed
    cases hed
    refine ⟨?_, rfl, rfl, rfl, rfl, rfl⟩
    cases lockOk <;> rfl
  · rfl

/-- The round trip evaluated at a concrete event, and the field copy at
a concrete row. -/
theorem c9_roundtrip_witness :
    decode (encode_payload true exEvent) = Except.ok exEvent
    ∧ EventDb.from_row ⟨[1], [2], 3, 4, Payload.corrupt 0, false⟩ =
        { id := [1], pubkey := [2], created_at := 3, kind := 4,
          payload := Payload.corrupt 0, deleted := false } := by
  have h := c9_roundtrip exEvent true ⟨[1], [2], 3, 4, Payload.corrupt 0, false⟩
  exact ⟨(h.1 _ rfl).1, h.2⟩

/-- Claim C5: save returns the accepted status exactly when the commit
succeeds (the id was not yet present), returns rejected-duplicate when
the commit fails, propagates any failure before the commit as a backend
error, and a second save of the same id yields rejected-duplicate while
leaving the first saved payload unchanged. -/
theorem c5_save_contract (st : DbState) (flt flt2 : FaultSpec)
    (ed ed2 : EventDataDb) :
    (noFaults flt ed = true →
       (save st flt ed = Except.ok (SaveEventStatus.success, extendState st ed)
          ↔ idPresent st ed.event.id = false)
       ∧ (idPresent st ed.event.id = true →
            save st flt ed =
              Except.ok (SaveEventStatus.rejected_duplicate, st)))
    ∧ (noFaults flt ed = false →
         ∃ c, save st flt ed = Except.error (DatabaseError.backend c))
    ∧ (noFaults flt ed = true → noFaults flt2 ed2 = true →
       idPresent st ed.event.id = false → ed2.event.id = ed.event.id →
         save (extendState st ed) flt2 ed2 =
             Except.ok (SaveEventStatus.rejected_duplicate, extendState st ed)
         ∧ (findEvent (extendState st ed) ed.event.id).map EventDb.payload
             = some ed.event.payload) := by
  refine ⟨?_, ?_, ?_⟩
  · intro hnf
    have hc : flt.conn = false ∧ flt.beginTx = false ∧ flt.insertEvent = false
        ∧ hasTagFault flt ed.tags = false := by
      unfold noFaults at hnf
      constructor
      · cases h : flt.conn <;> simp [h] at hnf ⊢
      constructor
      · cases h : flt.beginTx <;> simp [h] at hnf ⊢
      constructor
      · cases h : flt.insertEvent <;> simp [h] at hnf ⊢
      · cases h : hasTagFault flt ed.tags <;> simp [h] at hnf ⊢
    obtain ⟨h1, h2, h3, h4⟩ := hc
    constructor
    · constructor
      · intro hs
        cases hp : idPresent st ed.event.id with
        | false => rfl
        | true => simp [save, h1, h2, h3, h4, hp] at hs
      · intro hp
        simp [save, h1, h2, h3, h4, hp]
    · intro hp
      simp [save, h1, h2, h3, h4, hp]
  · intro hnf
    unfold noFaults at hnf
    by_cases h1 : flt.conn = true
    · exact ⟨ErrCause.connection, by simp [save, h1]⟩
    by_cases h2 : flt.beginTx = true
    · refine ⟨ErrCause.statement, ?_⟩
      simp only [Bool.not_eq_true] at h1
      simp [save, h1, h2]
    by_cases h3 : flt.insertEvent = true
    · refine ⟨ErrCause.statement, ?_⟩
      simp only [Bool.not_eq_true] at h1 h2
      simp [save, h1, h2, h3]
    · refine ⟨ErrCause.statement, ?_⟩
      simp only [Bool.not_eq_true] at h1 h2 h3
      have h4 : hasTagFault flt ed.tags = true := by
        cases h : hasTagFault flt ed.tags with
        | true => rfl
        | false => simp [h1, h2, h3, h] at hnf
      simp [save, h1, h2, h3, h4]
  · intro hnf hnf2 hp hid
    have hc2 : flt2.conn = false ∧ flt2.beginTx = false
        ∧ flt2.insertEvent = false ∧ hasTagFault flt2 ed2.tags = false := by
      unfold noFaults at hnf2
      constructor
      · cases h : flt2.conn <;> simp [h] at hnf2 ⊢
      constructor
      · cases h : flt2.beginTx <;> simp [h] at hnf2 ⊢
      constructor
      · cases h : flt2.insertEvent <;> simp [h] at hnf2 ⊢
      · cases h : hasTagFault flt2 ed2.tags <;> simp [h] at hnf2 ⊢
    obtain ⟨h1, h2, h3, h4⟩ := hc2
    have hfind := findEvent_extend st ed hp
    have hpres : idPresent (extendState st ed) ed2.event.id = true := by
      unfold idPresent extendState
      rw [List.any_append]
      simp [hid]
    constructor
    · simp [save, h1, h2, h3, h4, hpres]
    · rw [hfind]
      rfl

/-- The save contract evaluated concretely: a first save into the empty
store is accepted, the duplicate save of the same id is rejected with
the state (and so the stored payload) unchanged, and a connection fault
before the commit propagates as a backend error. -/
theorem c5_save_contract_witness :
    save { events := [], tags := [] } noFault exED =
        Except.ok (SaveEventStatus.success,
          extendState { events := [], tags := [] } exED)
    ∧ save (extendState { events := [], tags := [] } exED) noFault exED =
        Except.ok (SaveEventStatus.rejected_duplicate,
          extendState { events := [], tags := [] } exED)
    ∧ ∃ c, save { events := [], tags := [] } connFault exED =
        Except.error (DatabaseError.backend c) := by
  have h := c5_save_contract { events := [], tags := [] } noFault noFault exED exED
  have hf := c5_save_contract { events := [], tags := [] } connFault noFault exED exED
  refine ⟨(h.1 (by decide)).1.mpr (by decide), ?_, hf.2.1 (by decide)⟩
  exact (h.2.2 (by decide) (by decide) (by decide) rfl).1

/-- Claim C8: after a successful save of event e, `check_status(e.id)`
returns saved (the freshly mapped row is stored with deleted false) and
`get(e.id)` returns an event equal to e. -/
theorem c8_saved_then_visible (st st2 : DbState) (flt : FaultSpec)
    (lockOk : Bool) (e : Event)
    (hsave : save_event st flt lockOk e =
      Except.ok (SaveEventStatus.success, st2)) :
    check_id st2 e.id = Except.ok DatabaseEventStatus.saved
    ∧ event_by_id st2 e.id = Except.ok (some e) := by
  simp only [save_event, EventDataDb.tryFrom] at hsave
  unfold save at hsave
  split_ifs at hsave with h1 h2 h3 h4 h5
  all_goals simp only [Except.ok.injEq, Prod.mk.injEq, true_and,
    reduceCtorEq, false_and] at hsave
  subst hsave
  simp only [Bool.not_eq_true] at h5
  have hfind := findEvent_extend st
    { event :=
        { id := e.id, pubkey := e.pubkey,
          created_at := i64_of_u64 e.created_at, kind := i64_of_u16 e.kind,
          payload := encode_payload lockOk e, deleted := false },
      tags := extract_tags e } h5
  constructor
  · simp [check_id, hfind]
  · have hdec : decode (encode_payload lockOk e) = Except.ok e := by
      cases lockOk <;> rfl
    simp [event_by_id, hfind, hdec]

/-- The saved-then-visible contract evaluated at a concrete event saved
into the empty store. -/
theorem c8_saved_then_visible_witness :
    check_id wSt2 exEvent.id = Except.ok DatabaseEventStatus.saved
    ∧ event_by_id wSt2 exEvent.id = Except.ok (some exEvent) :=
  c8_saved_then_visible { events := [], tags := [] } wSt2 noFault true exEvent
    (by decide)

/-- Claim C7: get returns the reconstructed event when the row exists
and is not deleted, returns absent when the row is missing or deleted,
surfaces the decode failure as an error (wrapped through the backend
constructor, as the source does) when the stored payload fails to
decode, and during bulk query a row whose payload fails to decode is
silently skipped while the remaining results are still returned. -/
theorem c7_get_decode (st : DbState) (eid : List Nat) (r : EventDb) :
    (findEvent st eid = none → event_by_id st eid = Except.ok none)
    ∧ (findEvent st eid = some r → r.deleted = true →
        event_by_id st eid = Except.ok none)
    ∧ (∀ ev, findEvent st eid = some r → r.deleted = false →
        decode r.payload = Except.ok ev →
        event_by_id st eid = Except.ok (some ev))
    ∧ (findEvent st eid = some r → r.deleted = false →
        decode r.payload = Except.error () →
        event_by_id st eid =
          Except.error (DatabaseError.backend ErrCause.decodeFailure))
    ∧ (∀ rows1 rows2, decode r.payload = Except.error () →
        collectEvents (rows1 ++ r :: rows2) =
          collectEvents rows1 ++ collectEvents rows2) := by
  refine ⟨?_, ?_, ?_, ?_, ?_⟩
  · intro h
    simp [event_by_id, h]
  · intro h hd
    simp [event_by_id, h, hd]
  · intro ev h hd hdec
    simp [event_by_id, h, hd, hdec]
  · intro h hd hdec
    simp [event_by_id, h, hd, hdec]
  · intro rows1 rows2 hdec
    unfold collectEvents
    rw [List.filterMap_append]
    simp [hdec]

/-- The read path evaluated on a concrete store holding a readable row,
a corrupt row and a deleted row. -/
theorem c7_get_decode_witness :
    event_by_id readSt [1, 2, 3] = Except.ok (some exEvent)
    ∧ event_by_id readSt [7] =
        Except.error (DatabaseError.backend ErrCause.decodeFailure)
    ∧ event_by_id readSt [5] = Except.ok none
    ∧ event_by_id readSt [0] = Except.ok none
    ∧ collectEvents ([exRow] ++ corruptRow :: [delRow]) =
        collectEvents [exRow] ++ collectEvents [delRow] := by
  refine ⟨?_, ?_, ?_, ?_, ?_⟩
  · exact (c7_get_decode readSt [1, 2, 3] exRow).2.2.1 exEvent (by decide)
      (by decide) (by decide)
  · exact (c7_get_decode readSt [7] corruptRow).2.2.2.1 (by decide)
      (by decide) (by decide)
  · exact (c7_get_decode readSt [5] delRow).2.1 (by decide) (by decide)
  · exact (c7_get_decode readSt [0] delRow).1 (by decide)
  · exact (c7_get_decode readSt [7] corruptRow).2.2.2.2 [exRow] [delRow]
      (by decide)

/-- Claim C1 evaluation: the bulk-update statement of delete is the
literal text with an unformatted placeholder, so the store rejects it;
at a store holding one matching non-deleted event, the update step of
delete returns a backend error and the event is still reported saved,
not deleted. -/
theorem c1_delete_update_malformed :
    dollarsFollowedByDigit delete_update_query.data = false
    ∧ deleteUpdateStep exSt [exRow.id] =
        Except.error (DatabaseError.backend ErrCause.statement)
    ∧ check_id exSt exRow.id = Except.ok DatabaseEventStatus.saved := by
  refine ⟨by decide, ?_, by decide⟩
  unfold deleteUpdateStep runUpdateStmt
  rw [if_neg (by decide)]

/-- Claim C6 evaluation: on a store with one non-deleted event bearing
two tags and the empty filter (whose compilation leaves the count base
query unchanged), the count query computes the number of join rows, 2,
while the number of distinct non-deleted events is 1; an execution
failure yields the count 0 instead of an error. -/
theorem c6_count_counts_join_rows :
    filter_to_sql_params count_base_query
        ⟨none, none, none, none, none, [], none⟩ = (count_base_query, [])
    ∧ countEmptyFilter false exSt = Except.ok 2
    ∧ distinctNonDeletedCount exSt = 1
    ∧ countEmptyFilter true exSt = Except.ok 0 := by
  refine ⟨?_, by decide, by decide, by decide⟩
  simp [filter_to_sql_params, has_filters]

end NostrPG
